/-
Verification of the constant-product parameter-search scripts of the
livo-contracts repository:

  * script/sepoliaSimulations/find_constant_product_params.py
    (namespace `ParamsSearch` below)
  * simulations/script/find_constant_product_params_with_graduation_fee.py
    (namespace `GradSearch` below)

Both scripts share, verbatim, the module constants, `to_wei`,
`reserves_from_eth` and `t0_real_numerator`; those are embedded once at top
level.  All Python integers become `Int`, Python floor division `//` becomes
`Int.fdiv`, and Python `int()` applied to a decimal value becomes truncation
toward zero (`Int.tdiv` on the scaled coefficient).

The graduation-fee script computes its composite score with Python
`decimal.Decimal` arithmetic under `getcontext().prec = 90` (round half to
even).  That arithmetic is embedded exactly by the executable type `Dec`
below: a value is a pair of integers m, e denoting m * 10 ^ e, every
arithmetic operation first forms the exact result and then rounds its
coefficient to at most 90 significant digits, rounding half to even, exactly
as the decimal context does.  Comparisons on `Dec` are comparisons of the
denoted rational values, as in Python.

The command line `Decimal` arguments that are only ever converted to wei
(`min_e0_eth`, `max_e0_eth`, `step_e0_eth`, `target_fee_eth`) are embedded as
exact rationals; the weight arguments, which enter `Decimal` arithmetic, are
embedded as `Dec` values.

The scan loop `e0 = min_e0; while e0 <= max_e0: ...; e0 += step_e0` is
embedded as the list `e0Grid` of visited values, produced by a structurally
recursive loop `scanLoop` whose fuel is exactly the number of iterations the
while loop performs for a positive step (this count is proved below).  The
Python `raise` statements become an `Except SearchErr` result.

One modelling note: the first script iterates over a Python set literal of
five distinct integers, whose iteration order is implementation defined; the
embedding fixes the ascending order.  Every property proved below is
insensitive to that order (they speak about the error values, not about
which tied candidate is kept).
-/
import Mathlib

set_option maxRecDepth 100000

/-- WAD, the fixed-point unit: 10 ^ 18 wei per ETH. -/
def WAD : ℤ := 10 ^ 18

/-- TOTAL_SUPPLY = 1_000_000_000 * WAD. -/
def TOTAL_SUPPLY : ℤ := 1000000000 * WAD

/-- TARGET_ETH_WEI = int(Decimal("8.5") * WAD). -/
def TARGET_ETH_WEI : ℤ := 8500000000000000000

/-- TARGET_TOKENS = 200_000_000 * WAD. -/
def TARGET_TOKENS : ℤ := 200000000 * WAD

/-- TARGET_FEE_WEI = int(Decimal("0.5") * WAD), used by the graduation script. -/
def TARGET_FEE_WEI : ℤ := 500000000000000000

/-- to_wei(value_eth) = int(value_eth * WAD): the exact rational value scaled
by WAD and truncated toward zero, as Python int() does.  The truncation of
(num/den) * WAD is computed directly as the integer quotient of num * WAD by
den rounded toward zero, which equals the truncation of the product. -/
def to_wei (value_eth : ℚ) : ℤ :=
  (value_eth.num * WAD).tdiv (value_eth.den : ℤ)

/-- reserves_from_eth(k, t0, e0, eth_reserves) = k // (eth_reserves + e0) - t0,
with Python floor division. -/
def reserves_from_eth (k t0 e0 eth_reserves : ℤ) : ℤ :=
  (k.fdiv (eth_reserves + e0)) - t0

/-- t0_real_numerator(e0), identical in both scripts. -/
def t0_real_numerator (e0 : ℤ) : ℤ :=
  (TOTAL_SUPPLY - TARGET_TOKENS) * e0 - TARGET_TOKENS * TARGET_ETH_WEI

/-- One step of the while loop over e0: emit the current value while it does
not exceed the bound, then advance by the step.  The fuel argument is spent
one unit per iteration. -/
def scanLoop (maxE step : ℤ) : ℕ → ℤ → List ℤ
  | 0, _ => []
  | fuel + 1, e0 => if e0 ≤ maxE then e0 :: scanLoop maxE step fuel (e0 + step) else []

/-- The list of e0 values visited by `e0 = minE; while e0 <= maxE: ...;
e0 += step`.  For a positive step the loop runs exactly
(maxE - minE) // step + 1 times when minE <= maxE (proved below), which is
the fuel supplied here. -/
def e0Grid (minE maxE step : ℤ) : List ℤ :=
  scanLoop maxE step (((maxE - minE).fdiv step).toNat + 1) minE

/-- Errors raised by the two search functions: the ValueError argument checks,
in source order, and the final RuntimeError when no candidate was found. -/
inductive SearchErr : Type
  | invalidMin
  | invalidRange
  | invalidStep
  | invalidWindow
  | invalidFee
  | noCandidate
deriving DecidableEq

/-- The running best of the scan: fold one candidate into the current best
(`none` while no candidate has been seen, as `best = None` in the source). -/
def foldStep {α : Type} (pick : α → α → α) : Option α → α → Option α
  | none, c => some c
  | some b, c => some (pick b c)

/-- Fold a whole candidate list into the best candidate. -/
def foldBest {α : Type} (pick : α → α → α) (l : List α) : Option α :=
  l.foldl (foldStep pick) none

/-- The working precision of decimal.getcontext() in the graduation script. -/
def decPrec : ℕ := 90

/-- Number of decimal digits of n (1 for n = 0), by repeated division; the
fuel n + 1 always suffices since a positive number has at most as many digits
as its value. -/
def natDigitsAux : ℕ → ℕ → ℕ
  | 0, _ => 0
  | fuel + 1, n => if n < 10 then 1 else natDigitsAux fuel (n / 10) + 1

/-- Number of decimal digits of a natural number (1 for 0). -/
def natDigits (n : ℕ) : ℕ := natDigitsAux (n + 1) n

/-- Round n / d to the nearest integer, ties to even, for d > 0.  Stated via
floor division: with r the floor remainder, round down when 2r < d, up when
2r > d, and to the even neighbour on a tie.  On negative values this agrees
with rounding the magnitude half to even, which is what the decimal context
does to coefficients. -/
def rhe (n d : ℤ) : ℤ :=
  let q := n.fdiv d
  let r := n - q * d
  if 2 * r < d then q
  else if d < 2 * r then q + 1
  else if q % 2 = 0 then q else q + 1

/-- Round n / d half to even for any nonzero d, normalising the sign of d. -/
def rheDiv (n d : ℤ) : ℤ :=
  if 0 < d then rhe n d else rhe (-n) (-d)

/-- A decimal number m * 10 ^ e, as the decimal module represents it
(coefficient and exponent). -/
structure Dec : Type where
  m : ℤ
  e : ℤ
deriving DecidableEq, Repr

/-- Round an exact result m * 10 ^ e to at most `decPrec` significant digits,
half to even: this is the context rounding the decimal module applies to
every arithmetic result. -/
def roundDec (m e : ℤ) : Dec :=
  let dgs := natDigits m.natAbs
  if dgs ≤ decPrec then ⟨m, e⟩
  else
    let x := dgs - decPrec
    ⟨rhe m (10 ^ x), e + (x : ℤ)⟩

namespace Dec

/-- Decimal(n) for an integer n: exact, independent of the context. -/
def ofInt (n : ℤ) : Dec := ⟨n, 0⟩

/-- The rational value denoted by a decimal. -/
def toRat (a : Dec) : ℚ :=
  if 0 ≤ a.e then ((a.m * 10 ^ a.e.toNat : ℤ) : ℚ)
  else (a.m : ℚ) / (((10 : ℤ) ^ (-a.e).toNat : ℤ) : ℚ)

/-- Decimal addition: exact sum, then context rounding. -/
def add (a b : Dec) : Dec :=
  if a.e ≤ b.e then roundDec (a.m + b.m * 10 ^ (b.e - a.e).toNat) a.e
  else roundDec (a.m * 10 ^ (a.e - b.e).toNat + b.m) b.e

/-- Decimal subtraction: exact difference, then context rounding. -/
def sub (a b : Dec) : Dec := add a ⟨-b.m, b.e⟩

/-- Decimal multiplication: exact product, then context rounding. -/
def mul (a b : Dec) : Dec := roundDec (a.m * b.m) (a.e + b.e)

/-- Decimal absolute value (the context rounds unary results as well; the
rounding is the identity whenever the coefficient already fits). -/
def abs (a : Dec) : Dec := roundDec |a.m| a.e

/-- The quotient coefficient of a.m / b.m scaled by 10 ^ s, rounded half to
even. -/
def scaledRhe (n d s' : ℤ) : ℤ :=
  if 0 ≤ s' then rheDiv (n * 10 ^ s'.toNat) d else rheDiv n (d * 10 ^ (-s').toNat)

/-- Decimal division: the exact quotient rounded to `decPrec` significant
digits, half to even.  The scale s aims the rounded coefficient at exactly
`decPrec` digits; if the estimate overshoots by one digit the coefficient is
recomputed from the exact operands one digit shorter, so the result is always
the correctly rounded quotient (never rounded twice).  Division by zero is
unreachable in the embedded script (the source would raise); it returns 0
here. -/
def div (a b : Dec) : Dec :=
  if b.m = 0 then ⟨0, 0⟩
  else
    let s : ℤ := (decPrec : ℤ) + (natDigits b.m.natAbs : ℤ) - (natDigits a.m.natAbs : ℤ)
    let q := scaledRhe a.m b.m s
    if natDigits q.natAbs ≤ decPrec then ⟨q, a.e - b.e - s⟩
    else ⟨scaledRhe a.m b.m (s - 1), a.e - b.e - (s - 1)⟩

/-- int() of a decimal: truncation toward zero. -/
def toIntTrunc (a : Dec) : ℤ :=
  if 0 ≤ a.e then a.m * 10 ^ a.e.toNat else a.m.tdiv (10 ^ (-a.e).toNat)

/-- Value comparison of two decimals, as Python compares Decimal objects:
align the coefficients to the smaller exponent and compare the integers. -/
def blt (a b : Dec) : Bool :=
  if a.e ≤ b.e then a.m < b.m * 10 ^ (b.e - a.e).toNat
  else a.m * 10 ^ (a.e - b.e).toNat < b.m

end Dec

namespace ParamsSearch

/-- The Candidate dataclass of find_constant_product_params.py. -/
structure Candidate : Type where
  k : ℤ
  t0 : ℤ
  e0 : ℤ
  t_at_zero : ℤ
  t_at_target : ℤ
  target_error : ℤ
deriving DecidableEq, Repr

/-- evaluate_candidate(e0, t0) of find_constant_product_params.py. -/
def evaluate_candidate (e0 t0 : ℤ) : Option Candidate :=
  if e0 ≤ 0 ∨ t0 < 0 then none
  else
    let k := (TOTAL_SUPPLY + t0) * e0
    let t_at_zero := reserves_from_eth k t0 e0 0
    if t_at_zero ≠ TOTAL_SUPPLY then none
    else
      let t_at_target := reserves_from_eth k t0 e0 TARGET_ETH_WEI
      let err := |t_at_target - TARGET_TOKENS|
      some ⟨k, t0, e0, t_at_zero, t_at_target, err⟩

/-- floor_t0 = num // den inside the scan loop. -/
def floor_t0 (e0 : ℤ) : ℤ := (t0_real_numerator e0).fdiv TARGET_ETH_WEI

/-- candidate_t0_values: the five distinct t0 values tested around floor_t0
(the source builds them as a set; the order is fixed ascending here, and no
property proved below depends on it). -/
def candidate_t0_values (f : ℤ) : List ℤ := [f - 2, f - 1, f, f + 1, f + 2]

/-- The update rule of the scan: keep the strictly smaller target error,
break exact ties toward the smaller e0, otherwise keep the incumbent. -/
def pick (b c : Candidate) : Candidate :=
  if c.target_error < b.target_error then c
  else if c.target_error = b.target_error ∧ c.e0 < b.e0 then c else b

/-- All candidates the scan evaluates successfully, in visit order. -/
def candidates (minE maxE step : ℤ) : List Candidate :=
  (e0Grid minE maxE step).flatMap fun e0 =>
    (candidate_t0_values (floor_t0 e0)).filterMap (evaluate_candidate e0)

/-- search(min_e0_eth, max_e0_eth, step_e0_eth) of
find_constant_product_params.py: argument validation in source order, then
the scan, then either the best candidate or the final RuntimeError. -/
def search (min_e0_eth max_e0_eth step_e0_eth : ℚ) : Except SearchErr Candidate :=
  let min_e0 := to_wei min_e0_eth
  let max_e0 := to_wei max_e0_eth
  let step_e0 := to_wei step_e0_eth
  if min_e0 ≤ 0 then .error .invalidMin
  else if max_e0 < min_e0 then .error .invalidRange
  else if step_e0 ≤ 0 then .error .invalidStep
  else
    match foldBest pick (candidates min_e0 max_e0 step_e0) with
    | none => .error .noCandidate
    | some best => .ok best

end ParamsSearch

namespace GradSearch

/-- The Candidate dataclass of find_constant_product_params_with_graduation_fee.py. -/
structure Candidate : Type where
  k : ℤ
  t0 : ℤ
  e0 : ℤ
  t_at_zero : ℤ
  t_at_grad : ℤ
  token_error_wei : ℤ
  fee_for_price_match_wei : ℤ
  fee_error_wei : ℤ
  price_curve : Dec
  price_uni_with_target_fee : Dec
  price_deviation : Dec
  score : Dec
deriving DecidableEq, Repr

/-- score_candidate of the graduation script (the price_deviation argument is
named price_deviation_ratio in the source). -/
def score_candidate (token_error_wei fee_error_wei : ℤ) (price_deviation : Dec)
    (w_token w_fee w_price : Dec) (fee_for_price_match_wei : ℤ) : Dec :=
  let tokenErrFrac := Dec.div (Dec.ofInt token_error_wei) (Dec.ofInt TARGET_TOKENS)
  let feeErrFrac := Dec.div (Dec.ofInt fee_error_wei) (Dec.ofInt TARGET_FEE_WEI)
  let score :=
    Dec.add (Dec.add (Dec.mul w_token tokenErrFrac) (Dec.mul w_fee feeErrFrac))
      (Dec.mul w_price price_deviation)
  if fee_for_price_match_wei < 0 then Dec.add score (Dec.ofInt 1) else score

/-- evaluate_candidate of the graduation script.  The field
price_deviation_ratio of the source is named price_deviation here. -/
def evaluate_candidate (e0 t0 target_fee_wei : ℤ) (w_token w_fee w_price : Dec) :
    Option Candidate :=
  if e0 ≤ 0 ∨ t0 < 0 then none
  else
    let k := (TOTAL_SUPPLY + t0) * e0
    let t_at_zero := reserves_from_eth k t0 e0 0
    if t_at_zero ≠ TOTAL_SUPPLY then none
    else
      let t_at_grad := reserves_from_eth k t0 e0 TARGET_ETH_WEI
      if t_at_grad ≤ 0 then none
      else
        let token_error_wei := |t_at_grad - TARGET_TOKENS|
        let price_curve := Dec.div (Dec.ofInt ((TARGET_ETH_WEI + e0) ^ 2)) (Dec.ofInt k)
        let uni_eth_after_target_fee := TARGET_ETH_WEI - target_fee_wei
        if uni_eth_after_target_fee ≤ 0 then none
        else
          let price_uni_with_target_fee :=
            Dec.div (Dec.ofInt uni_eth_after_target_fee) (Dec.ofInt t_at_grad)
          -- price_curve == 0: a decimal is zero exactly when its coefficient is
          if price_curve.m = 0 then none
          else
            let price_deviation :=
              Dec.div (Dec.abs (Dec.sub price_uni_with_target_fee price_curve)) price_curve
            let fee_for_price_match_wei :=
              (Dec.sub (Dec.ofInt TARGET_ETH_WEI) (Dec.mul (Dec.ofInt t_at_grad) price_curve)).toIntTrunc
            let fee_error_wei := |fee_for_price_match_wei - target_fee_wei|
            let score :=
              score_candidate token_error_wei fee_error_wei price_deviation
                w_token w_fee w_price fee_for_price_match_wei
            some ⟨k, t0, e0, t_at_zero, t_at_grad, token_error_wei,
              fee_for_price_match_wei, fee_error_wei, price_curve,
              price_uni_with_target_fee, price_deviation, score⟩

/-- The t0 values range(floor_t0 - t0_window, floor_t0 + t0_window + 1). -/
def t0List (f w : ℤ) : List ℤ :=
  (List.range (2 * w + 1).toNat).map fun i : ℕ => f - w + (i : ℤ)

/-- The update rule of the scan: keep the candidate with the strictly smaller
score (scores compare by denoted value, as Decimal comparison does). -/
def pick (b c : Candidate) : Candidate :=
  if Dec.blt c.score b.score then c else b

/-- All candidates the scan evaluates successfully, in visit order. -/
def candidates (minE maxE step w fee : ℤ) (w_token w_fee w_price : Dec) :
    List Candidate :=
  (e0Grid minE maxE step).flatMap fun e0 =>
    (t0List (ParamsSearch.floor_t0 e0) w).filterMap fun t0 =>
      evaluate_candidate e0 t0 fee w_token w_fee w_price

/-- search of the graduation script: argument validation in source order,
the scan, then the best candidate or the final RuntimeError. -/
def search (min_e0_eth max_e0_eth step_e0_eth : ℚ) (t0_window : ℤ)
    (target_fee_eth : ℚ) (w_token w_fee w_price : Dec) : Except SearchErr Candidate :=
  let min_e0 := to_wei min_e0_eth
  let max_e0 := to_wei max_e0_eth
  let step_e0 := to_wei step_e0_eth
  let target_fee_wei := to_wei target_fee_eth
  if min_e0 ≤ 0 then .error .invalidMin
  else if max_e0 < min_e0 then .error .invalidRange
  else if step_e0 ≤ 0 then .error .invalidStep
  else if t0_window < 0 then .error .invalidWindow
  else if target_fee_wei ≤ 0 ∨ TARGET_ETH_WEI ≤ target_fee_wei then .error .invalidFee
  else
    match foldBest pick (candidates min_e0 max_e0 step_e0 t0_window target_fee_wei
        w_token w_fee w_price) with
    | none => .error .noCandidate
    | some best => .ok best

end GradSearch

section FoldBestLemmas

variable {α : Type} {β : Type} [LinearOrder β]

theorem foldl_foldStep_isSome (pick : α → α → α) (l : List α) (a : α) :
    ∃ b, l.foldl (foldStep pick) (some a) = some b := by
  induction l generalizing a with
  | nil => exact ⟨a, rfl⟩
  | cons c l ih => simpa [foldStep] using ih (pick a c)

theorem foldBest_eq_none_iff (pick : α → α → α) (l : List α) :
    foldBest pick l = none ↔ l = [] := by
  cases l with
  | nil => simp [foldBest]
  | cons c l =>
    simp only [foldBest, List.foldl_cons, foldStep]
    obtain ⟨b, hb⟩ := foldl_foldStep_isSome pick l c
    simp [hb]

theorem foldl_foldStep_mem (pick : α → α → α)
    (hpick : ∀ x y, pick x y = x ∨ pick x y = y) (l : List α) :
    ∀ (a b : α), l.foldl (foldStep pick) (some a) = some b → b = a ∨ b ∈ l := by
  induction l with
  | nil => intro a b h; simp only [List.foldl_nil, Option.some.injEq] at h; exact Or.inl h.symm
  | cons c l ih =>
    intro a b h
    simp only [List.foldl_cons, foldStep] at h
    rcases ih (pick a c) b h with h1 | h1
    · rcases hpick a c with h2 | h2 <;> rw [h2] at h1
      · exact Or.inl h1
      · exact Or.inr (h1 ▸ List.mem_cons_self c l)
    · exact Or.inr (List.mem_cons_of_mem c h1)

theorem foldBest_mem (pick : α → α → α)
    (hpick : ∀ x y, pick x y = x ∨ pick x y = y) (l : List α) (b : α)
    (h : foldBest pick l = some b) : b ∈ l := by
  cases l with
  | nil => simp [foldBest] at h
  | cons c l =>
    simp only [foldBest, List.foldl_cons, foldStep] at h
    rcases foldl_foldStep_mem pick hpick l c b h with h1 | h1
    · exact h1 ▸ List.mem_cons_self c l
    · exact List.mem_cons_of_mem c h1

theorem foldl_foldStep_min (pick : α → α → α) (key : α → β)
    (hkey : ∀ x y, key (pick x y) ≤ key x ∧ key (pick x y) ≤ key y) (l : List α) :
    ∀ (a b : α), l.foldl (foldStep pick) (some a) = some b →
      key b ≤ key a ∧ ∀ c ∈ l, key b ≤ key c := by
  induction l with
  | nil =>
    intro a b h; simp only [List.foldl_nil, Option.some.injEq] at h
    exact ⟨le_of_eq (congrArg key h.symm), by simp⟩
  | cons c l ih =>
    intro a b h
    simp only [List.foldl_cons, foldStep] at h
    obtain ⟨h1, h2⟩ := ih (pick a c) b h
    refine ⟨h1.trans (hkey a c).1, ?_⟩
    intro d hd
    rcases List.mem_cons.mp hd with rfl | hd
    · exact h1.trans (hkey a d).2
    · exact h2 d hd

theorem foldBest_min (pick : α → α → α) (key : α → β)
    (hkey : ∀ x y, key (pick x y) ≤ key x ∧ key (pick x y) ≤ key y) (l : List α) (b : α)
    (h : foldBest pick l = some b) : ∀ c ∈ l, key b ≤ key c := by
  cases l with
  | nil => simp [foldBest] at h
  | cons c l =>
    simp only [foldBest, List.foldl_cons, foldStep] at h
    obtain ⟨h1, h2⟩ := foldl_foldStep_min pick key hkey l c b h
    intro d hd
    rcases List.mem_cons.mp hd with rfl | hd
    · exact h1
    · exact h2 d hd

end FoldBestLemmas

/-- The script-one update rule keeps one of its two arguments. -/
theorem ParamsSearch.pick_cases_params (b c : ParamsSearch.Candidate) :
    ParamsSearch.pick b c = b ∨ ParamsSearch.pick b c = c := by
  unfold ParamsSearch.pick; split_ifs <;> simp

/-- The script-one update rule never increases the kept target error. -/
theorem ParamsSearch.pick_key_params (b c : ParamsSearch.Candidate) :
    (ParamsSearch.pick b c).target_error ≤ b.target_error ∧
    (ParamsSearch.pick b c).target_error ≤ c.target_error := by
  unfold ParamsSearch.pick; split_ifs with h1 h2
  · exact ⟨le_of_lt h1, le_refl _⟩
  · exact ⟨le_of_eq h2.1, le_refl _⟩
  · exact ⟨le_refl _, le_of_not_lt h1⟩

/-- The denoted value of a decimal is its coefficient times an integer power
of ten. -/
theorem Dec.toRat_eq_zpow (a : Dec) : a.toRat = (a.m : ℚ) * 10 ^ a.e := by
  unfold Dec.toRat
  split_ifs with h
  · have he : ((10 : ℚ)) ^ a.e = (10 : ℚ) ^ a.e.toNat := by
      conv_lhs => rw [← Int.toNat_of_nonneg h]
      exact zpow_natCast 10 a.e.toNat
    rw [he]
    push_cast
    ring
  · push_neg at h
    rw [div_eq_mul_inv]
    congr 1
    rw [show ((10 ^ (-a.e).toNat : ℤ) : ℚ) = (10 : ℚ) ^ (-a.e).toNat by push_cast; ring]
    rw [← zpow_natCast (10 : ℚ) (-a.e).toNat,
      Int.toNat_of_nonneg (by omega : (0 : ℤ) ≤ -a.e), ← zpow_neg, neg_neg]

/-- The executable decimal comparison agrees with the comparison of denoted
values. -/
theorem Dec.blt_iff (a b : Dec) : Dec.blt a b = true ↔ a.toRat < b.toRat := by
  unfold Dec.blt
  rw [Dec.toRat_eq_zpow, Dec.toRat_eq_zpow]
  split_ifs with h
  · rw [decide_eq_true_eq]
    have h10 : (0 : ℚ) < 10 ^ a.e := zpow_pos (by norm_num) _
    constructor
    · intro hlt
      have := (mul_lt_mul_right h10).mpr (by exact_mod_cast hlt :
        ((a.m : ℚ)) < (b.m : ℚ) * 10 ^ (b.e - a.e).toNat)
      calc (a.m : ℚ) * 10 ^ a.e
          < (b.m : ℚ) * 10 ^ (b.e - a.e).toNat * 10 ^ a.e := this
        _ = (b.m : ℚ) * 10 ^ b.e := by
            rw [← zpow_natCast (10 : ℚ) (b.e - a.e).toNat,
              Int.toNat_of_nonneg (by omega : (0 : ℤ) ≤ b.e - a.e), mul_assoc,
              ← zpow_add₀ (by norm_num : (10 : ℚ) ≠ 0), sub_add_cancel]
    · intro hlt
      have key : ((a.m : ℚ)) * 10 ^ a.e < ((b.m : ℚ) * 10 ^ (b.e - a.e).toNat) * 10 ^ a.e := by
        calc ((a.m : ℚ)) * 10 ^ a.e < (b.m : ℚ) * 10 ^ b.e := hlt
          _ = ((b.m : ℚ) * 10 ^ (b.e - a.e).toNat) * 10 ^ a.e := by
              rw [← zpow_natCast (10 : ℚ) (b.e - a.e).toNat,
                Int.toNat_of_nonneg (by omega : (0 : ℤ) ≤ b.e - a.e), mul_assoc,
                ← zpow_add₀ (by norm_num : (10 : ℚ) ≠ 0), sub_add_cancel]
      have := (mul_lt_mul_right h10).mp key
      exact_mod_cast this
  · push_neg at h
    rw [decide_eq_true_eq]
    have h10 : (0 : ℚ) < 10 ^ b.e := zpow_pos (by norm_num) _
    constructor
    · intro hlt
      have := (mul_lt_mul_right h10).mpr (by exact_mod_cast hlt :
        ((a.m : ℚ)) * 10 ^ (a.e - b.e).toNat < (b.m : ℚ))
      calc (a.m : ℚ) * 10 ^ a.e
          = ((a.m : ℚ) * 10 ^ (a.e - b.e).toNat) * 10 ^ b.e := by
            rw [← zpow_natCast (10 : ℚ) (a.e - b.e).toNat,
              Int.toNat_of_nonneg (by omega : (0 : ℤ) ≤ a.e - b.e), mul_assoc,
              ← zpow_add₀ (by norm_num : (10 : ℚ) ≠ 0), sub_add_cancel]
        _ < (b.m : ℚ) * 10 ^ b.e := this
    · intro hlt
      have key : ((a.m : ℚ) * 10 ^ (a.e - b.e).toNat) * 10 ^ b.e < (b.m : ℚ) * 10 ^ b.e := by
        calc ((a.m : ℚ) * 10 ^ (a.e - b.e).toNat) * 10 ^ b.e
            = (a.m : ℚ) * 10 ^ a.e := by
              rw [← zpow_natCast (10 : ℚ) (a.e - b.e).toNat,
                Int.toNat_of_nonneg (by omega : (0 : ℤ) ≤ a.e - b.e), mul_assoc,
                ← zpow_add₀ (by norm_num : (10 : ℚ) ≠ 0), sub_add_cancel]
          _ < (b.m : ℚ) * 10 ^ b.e := hlt
      have := (mul_lt_mul_right h10).mp key
      exact_mod_cast this

/-- A decimal with zero coefficient denotes the value zero. -/
theorem Dec.toRat_eq_zero (a : Dec) (h : a.m = 0) : a.toRat = 0 := by
  rw [Dec.toRat_eq_zpow, h]
  push_cast
  ring

/-- The graduation-script update rule keeps one of its two arguments. -/
theorem GradSearch.pick_cases_grad (b c : GradSearch.Candidate) :
    GradSearch.pick b c = b ∨ GradSearch.pick b c = c := by
  unfold GradSearch.pick; split_ifs <;> simp

/-- The graduation-script update rule never increases the kept score value. -/
theorem GradSearch.pick_key_grad (b c : GradSearch.Candidate) :
    (GradSearch.pick b c).score.toRat ≤ b.score.toRat ∧
    (GradSearch.pick b c).score.toRat ≤ c.score.toRat := by
  unfold GradSearch.pick; split_ifs with h1
  · exact ⟨le_of_lt ((Dec.blt_iff _ _).mp h1), le_refl _⟩
  · refine ⟨le_refl _, ?_⟩
    have := (not_iff_not.mpr (Dec.blt_iff c.score b.score)).mp (by simpa using h1)
    exact le_of_not_lt this

section GridLemmas

/-- Subtracting one step shifts the floor quotient down by one. -/
theorem fdiv_sub_step (a step : ℤ) (hs : 0 < step) :
    (a - step).fdiv step = a.fdiv step - 1 := by
  rw [Int.fdiv_eq_ediv _ hs.le, Int.fdiv_eq_ediv _ hs.le]
  have h := Int.add_mul_ediv_right a (-1) (ne_of_gt hs)
  have e : a + -1 * step = a - step := by ring
  rw [e] at h
  omega

/-- Above the bound the loop emits nothing, for any fuel. -/
theorem scanLoop_stop (maxE step : ℤ) (fuel : ℕ) (e0 : ℤ) (h : maxE < e0) :
    scanLoop maxE step fuel e0 = [] := by
  cases fuel with
  | zero => rfl
  | succ fuel => simp [scanLoop, not_le.mpr h]

/-- Membership in the loop output, given enough fuel: exactly the points of
the arithmetic progression that do not exceed the bound. -/
theorem scanLoop_mem (maxE step : ℤ) (hs : 0 < step) :
    ∀ (fuel : ℕ) (e0 : ℤ), (maxE - e0).fdiv step < (fuel : ℤ) →
      ∀ x : ℤ, (x ∈ scanLoop maxE step fuel e0 ↔
        ∃ j : ℕ, x = e0 + (j : ℤ) * step ∧ x ≤ maxE) := by
  intro fuel
  induction fuel with
  | zero =>
    intro e0 hfuel x
    have hlt : maxE < e0 := by
      by_contra hc
      have h0 : (0 : ℤ) ≤ (maxE - e0).fdiv step := by
        rw [Int.fdiv_eq_ediv _ hs.le]
        exact Int.ediv_nonneg (by omega) hs.le
      omega
    simp only [scanLoop, List.not_mem_nil, false_iff]
    rintro ⟨j, rfl, hle⟩
    nlinarith [mul_nonneg (Int.ofNat_nonneg j) hs.le]
  | succ fuel ih =>
    intro e0 hfuel x
    by_cases hle : e0 ≤ maxE
    · simp only [scanLoop, if_pos hle, List.mem_cons]
      have hfuel' : (maxE - (e0 + step)).fdiv step < (fuel : ℤ) := by
        have e : maxE - (e0 + step) = (maxE - e0) - step := by ring
        rw [e, fdiv_sub_step _ _ hs]
        push_cast at hfuel ⊢
        omega
      rw [ih (e0 + step) hfuel' x]
      constructor
      · rintro (rfl | ⟨j, rfl, hj⟩)
        · exact ⟨0, by simp, hle⟩
        · exact ⟨j + 1, by push_cast; ring, hj⟩
      · rintro ⟨j, rfl, hj⟩
        cases j with
        | zero => exact Or.inl (by simp)
        | succ j => exact Or.inr ⟨j, by push_cast; ring, hj⟩
    · rw [scanLoop_stop _ _ _ _ (not_le.mp hle)]
      simp only [List.not_mem_nil, false_iff]
      rintro ⟨j, rfl, hj⟩
      have := mul_nonneg (Int.ofNat_nonneg j) hs.le
      omega

/-- Membership in the visited grid, for a positive step. -/
theorem e0Grid_mem (minE maxE step : ℤ) (hs : 0 < step) (x : ℤ) :
    x ∈ e0Grid minE maxE step ↔ ∃ j : ℕ, x = minE + (j : ℤ) * step ∧ x ≤ maxE := by
  apply scanLoop_mem maxE step hs
  have h := Int.self_le_toNat ((maxE - minE).fdiv step)
  push_cast
  omega

/-- The first grid point is the lower bound, when the range is nonempty. -/
theorem e0Grid_self_mem (minE maxE step : ℤ) (hs : 0 < step) (h : minE ≤ maxE) :
    minE ∈ e0Grid minE maxE step := by
  rw [e0Grid_mem minE maxE step hs]
  exact ⟨0, by simp, h⟩

/-- The loop output length, given enough fuel: one iteration per step from the
lower bound to the bound. -/
theorem scanLoop_length (maxE step : ℤ) (hs : 0 < step) :
    ∀ (fuel : ℕ) (e0 : ℤ), (maxE - e0).fdiv step < (fuel : ℤ) → e0 ≤ maxE →
      (scanLoop maxE step fuel e0).length = ((maxE - e0).fdiv step).toNat + 1 := by
  intro fuel
  induction fuel with
  | zero =>
    intro e0 hfuel hle
    exfalso
    have h0 : (0 : ℤ) ≤ (maxE - e0).fdiv step := by
      rw [Int.fdiv_eq_ediv _ hs.le]
      exact Int.ediv_nonneg (by omega) hs.le
    omega
  | succ fuel ih =>
    intro e0 hfuel hle
    simp only [scanLoop, if_pos hle, List.length_cons]
    by_cases hnext : e0 + step ≤ maxE
    · have hfuel' : (maxE - (e0 + step)).fdiv step < (fuel : ℤ) := by
        have e : maxE - (e0 + step) = (maxE - e0) - step := by ring
        rw [e, fdiv_sub_step _ _ hs]
        push_cast at hfuel ⊢
        omega
      rw [ih (e0 + step) hfuel' hnext]
      have e : maxE - (e0 + step) = (maxE - e0) - step := by ring
      rw [e, fdiv_sub_step _ _ hs]
      have h1 : (1 : ℤ) ≤ (maxE - e0).fdiv step := by
        rw [Int.fdiv_eq_ediv _ hs.le]
        rw [Int.le_ediv_iff_mul_le hs]
        omega
      omega
    · rw [scanLoop_stop _ _ _ _ (not_le.mp hnext)]
      have h0 : (maxE - e0).fdiv step = 0 := by
        rw [Int.fdiv_eq_ediv _ hs.le]
        exact Int.ediv_eq_zero_of_lt (by omega) (by omega)
      simp [h0]

/-- The grid length: the while loop over e0 runs exactly
(maxE - minE) // step + 1 times when the range is nonempty. -/
theorem e0Grid_length (minE maxE step : ℤ) (hs : 0 < step) (h : minE ≤ maxE) :
    (e0Grid minE maxE step).length = ((maxE - minE).fdiv step).toNat + 1 := by
  apply scanLoop_length maxE step hs _ _ _ h
  have := Int.self_le_toNat ((maxE - minE).fdiv step)
  push_cast
  omega

/-- Refining the step to a divisor visits a superset of the grid points. -/
theorem e0Grid_subset_of_dvd (minE maxE s s' : ℤ) (hs : 0 < s) (hs' : 0 < s')
    (hd : s' ∣ s) (x : ℤ) (hx : x ∈ e0Grid minE maxE s) : x ∈ e0Grid minE maxE s' := by
  rw [e0Grid_mem _ _ _ hs] at hx
  rw [e0Grid_mem _ _ _ hs']
  obtain ⟨j, rfl, hle⟩ := hx
  obtain ⟨m, rfl⟩ := hd
  have hm : 0 < m := by
    by_contra hc
    push_neg at hc
    nlinarith
  refine ⟨j * m.toNat, ?_, hle⟩
  have : ((m.toNat : ℤ)) = m := Int.toNat_of_nonneg hm.le
  push_cast
  rw [this]
  ring

end GridLemmas

section EvaluateLemmas

/-- For e0 > 0 the zero-ETH reserve computation is exact: the floor division
k // (0 + e0) with k = (TOTAL_SUPPLY + t0) * e0 recovers TOTAL_SUPPLY + t0. -/
theorem reserves_at_zero (e0 t0 : ℤ) (h : 0 < e0) :
    reserves_from_eth ((TOTAL_SUPPLY + t0) * e0) t0 e0 0 = TOTAL_SUPPLY := by
  unfold reserves_from_eth
  rw [zero_add, Int.mul_fdiv_cancel _ (ne_of_gt h)]
  ring

/-- Inversion for the first script: a successfully evaluated candidate
records exactly the computed fields, and its inputs passed the guards. -/
theorem ParamsSearch.evaluate_eq_some_params (e0 t0 : ℤ) (c : ParamsSearch.Candidate)
    (h : ParamsSearch.evaluate_candidate e0 t0 = some c) :
    0 < e0 ∧ 0 ≤ t0 ∧ c.e0 = e0 ∧ c.t0 = t0 ∧
    c.k = (TOTAL_SUPPLY + t0) * e0 ∧ c.t_at_zero = TOTAL_SUPPLY ∧
    c.t_at_target = reserves_from_eth ((TOTAL_SUPPLY + t0) * e0) t0 e0 TARGET_ETH_WEI ∧
    c.target_error = |c.t_at_target - TARGET_TOKENS| := by
  simp only [ParamsSearch.evaluate_candidate] at h
  split_ifs at h with h1 h2
  push_neg at h1
  injection h with h
  subst h
  refine ⟨h1.1, h1.2, rfl, rfl, rfl, ?_, rfl, rfl⟩
  exact not_ne_iff.mp h2

/-- The first script evaluates every pair passing the guards to a candidate
(there is no further rejection). -/
theorem ParamsSearch.evaluate_isSome (e0 t0 : ℤ) (h1 : 0 < e0) (h2 : 0 ≤ t0) :
    (ParamsSearch.evaluate_candidate e0 t0).isSome = true := by
  unfold ParamsSearch.evaluate_candidate
  have hg : ¬(e0 ≤ 0 ∨ t0 < 0) := by omega
  rw [if_neg hg, if_neg (not_ne_iff.mpr (reserves_at_zero e0 t0 h1))]
  rfl

/-- Inversion for the graduation script: a successfully evaluated candidate
records exactly the computed integer fields, and its inputs passed the
guards. -/
theorem GradSearch.evaluate_eq_some_grad (e0 t0 fee : ℤ) (w1 w2 w3 : Dec)
    (c : GradSearch.Candidate)
    (h : GradSearch.evaluate_candidate e0 t0 fee w1 w2 w3 = some c) :
    0 < e0 ∧ 0 ≤ t0 ∧ c.e0 = e0 ∧ c.t0 = t0 ∧
    c.k = (TOTAL_SUPPLY + t0) * e0 ∧ c.t_at_zero = TOTAL_SUPPLY ∧
    c.t_at_grad = reserves_from_eth ((TOTAL_SUPPLY + t0) * e0) t0 e0 TARGET_ETH_WEI ∧
    0 < c.t_at_grad ∧
    c.token_error_wei = |c.t_at_grad - TARGET_TOKENS| := by
  simp only [GradSearch.evaluate_candidate] at h
  split_ifs at h with h1 h2 h3 h4 h5
  push_neg at h1 h3
  injection h with h
  subst h
  exact ⟨h1.1, h1.2, rfl, rfl, rfl, not_ne_iff.mp h2, rfl, h3, rfl⟩

end EvaluateLemmas

section FloorLemmas

/-- For an integral e0 the derived floor point is never -1 or -2: the closed
form T0 boundary TARGET_TOKENS * TARGET_ETH_WEI / (TOTAL_SUPPLY -
TARGET_TOKENS) is the exact integer 2125000000000000000, so the numerator
jumps from below -2 * TARGET_ETH_WEI straight to 0 as e0 crosses it. -/
theorem floor_t0_not_small (e0 : ℤ) (h : -2 ≤ ParamsSearch.floor_t0 e0) :
    0 ≤ ParamsSearch.floor_t0 e0 := by
  unfold ParamsSearch.floor_t0 at *
  set A := t0_real_numerator e0 with hA
  have hG : (0 : ℤ) < TARGET_ETH_WEI := by decide
  rw [Int.fdiv_eq_ediv _ hG.le] at *
  by_contra hneg
  push_neg at hneg
  have hAneg : A < 0 := by
    by_contra hc
    push_neg at hc
    exact absurd (Int.ediv_nonneg hc hG.le) (by omega)
  have hlow : -2 * TARGET_ETH_WEI ≤ A := (Int.le_ediv_iff_mul_le hG).mp h
  have : A = (TOTAL_SUPPLY - TARGET_TOKENS) * e0 - TARGET_TOKENS * TARGET_ETH_WEI := hA
  simp only [TOTAL_SUPPLY, TARGET_TOKENS, TARGET_ETH_WEI, WAD] at this hlow hAneg
  omega

/-- At t0 = floor_t0 e0 the token reserve at the target point is exactly
TARGET_TOKENS: the defining property of the closed-form point composed with
the floor division. -/
theorem t_at_target_floor (e0 : ℤ) (h : 0 < e0) :
    reserves_from_eth ((TOTAL_SUPPLY + ParamsSearch.floor_t0 e0) * e0)
      (ParamsSearch.floor_t0 e0) e0 TARGET_ETH_WEI = TARGET_TOKENS := by
  have hG : (0 : ℤ) < TARGET_ETH_WEI := by decide
  set A := t0_real_numerator e0 with hA
  set f := ParamsSearch.floor_t0 e0 with hf
  have hfe : f = A / TARGET_ETH_WEI := by
    rw [hf]; unfold ParamsSearch.floor_t0
    rw [Int.fdiv_eq_ediv _ hG.le, hA]
  set r := A % TARGET_ETH_WEI with hr
  have hrid : TARGET_ETH_WEI * (A / TARGET_ETH_WEI) + r = A := Int.ediv_add_emod A TARGET_ETH_WEI
  have hr0 : 0 ≤ r := Int.emod_nonneg A (ne_of_gt hG)
  have hrG : r < TARGET_ETH_WEI := Int.emod_lt_of_pos A hG
  have hd : (0 : ℤ) < TARGET_ETH_WEI + e0 := by omega
  have hkey : (TOTAL_SUPPLY + f) * e0 = r + (TARGET_TOKENS + f) * (TARGET_ETH_WEI + e0) := by
    have hAval : A = (TOTAL_SUPPLY - TARGET_TOKENS) * e0 - TARGET_TOKENS * TARGET_ETH_WEI := hA
    have : TARGET_ETH_WEI * f + r = A := by rw [hfe]; exact hrid
    nlinarith [this, hAval]
  unfold reserves_from_eth
  rw [hkey, Int.fdiv_eq_ediv _ hd.le,
    Int.add_mul_ediv_right r (TARGET_TOKENS + f) (ne_of_gt hd)]
  rw [Int.ediv_eq_zero_of_lt hr0 (by omega)]
  ring

/-- For e0 > 0 with a nonnegative floor point, evaluating the floor candidate
succeeds and has target error zero. -/
theorem ParamsSearch.evaluate_floor (e0 : ℤ) (h : 0 < e0)
    (hf : 0 ≤ ParamsSearch.floor_t0 e0) :
    ∃ c, ParamsSearch.evaluate_candidate e0 (ParamsSearch.floor_t0 e0) = some c ∧
      c.target_error = 0 := by
  simp only [ParamsSearch.evaluate_candidate]
  have hg : ¬(e0 ≤ 0 ∨ ParamsSearch.floor_t0 e0 < 0) := by omega
  rw [if_neg hg, if_neg (not_ne_iff.mpr (reserves_at_zero e0 _ h))]
  refine ⟨_, rfl, ?_⟩
  simp only [t_at_target_floor e0 h, sub_self, abs_zero]

end FloorLemmas

section SearchLemmas

/-- Membership in the evaluated-candidate list of the first script. -/
theorem ParamsSearch.mem_candidates_params (minE maxE step : ℤ) (c : ParamsSearch.Candidate) :
    c ∈ ParamsSearch.candidates minE maxE step ↔
      ∃ e0 ∈ e0Grid minE maxE step,
        ∃ t0 ∈ ParamsSearch.candidate_t0_values (ParamsSearch.floor_t0 e0),
          ParamsSearch.evaluate_candidate e0 t0 = some c := by
  simp [ParamsSearch.candidates, List.mem_flatMap, List.mem_filterMap]

/-- Membership in the evaluated-candidate list of the graduation script. -/
theorem GradSearch.mem_candidates_grad (minE maxE step w fee : ℤ) (w1 w2 w3 : Dec)
    (c : GradSearch.Candidate) :
    c ∈ GradSearch.candidates minE maxE step w fee w1 w2 w3 ↔
      ∃ e0 ∈ e0Grid minE maxE step,
        ∃ t0 ∈ GradSearch.t0List (ParamsSearch.floor_t0 e0) w,
          GradSearch.evaluate_candidate e0 t0 fee w1 w2 w3 = some c := by
  simp [GradSearch.candidates, List.mem_flatMap, List.mem_filterMap]

/-- Inversion of a successful first-script search: the arguments passed
validation and the fold over the candidate list produced the result. -/
theorem ParamsSearch.search_ok_inv_params (a b c : ℚ) (x : ParamsSearch.Candidate)
    (h : ParamsSearch.search a b c = .ok x) :
    0 < to_wei a ∧ to_wei a ≤ to_wei b ∧ 0 < to_wei c ∧
    foldBest ParamsSearch.pick
      (ParamsSearch.candidates (to_wei a) (to_wei b) (to_wei c)) = some x := by
  simp only [ParamsSearch.search] at h
  split_ifs at h with h1 h2 h3
  refine ⟨by omega, by omega, by omega, ?_⟩
  rcases hf : foldBest ParamsSearch.pick
      (ParamsSearch.candidates (to_wei a) (to_wei b) (to_wei c)) with _ | y
  · rw [hf] at h; exact absurd h (by simp)
  · rw [hf] at h
    simp only [Except.ok.injEq] at h
    rw [h]

/-- A valid first-script search reduces to the fold over its candidates. -/
theorem ParamsSearch.search_valid_params (a b c : ℚ) (h1 : 0 < to_wei a)
    (h2 : to_wei a ≤ to_wei b) (h3 : 0 < to_wei c) :
    ParamsSearch.search a b c =
      match foldBest ParamsSearch.pick
          (ParamsSearch.candidates (to_wei a) (to_wei b) (to_wei c)) with
      | none => .error .noCandidate
      | some best => .ok best := by
  simp only [ParamsSearch.search]
  rw [if_neg (by omega), if_neg (by omega), if_neg (by omega)]

/-- Inversion of a successful graduation-script search. -/
theorem GradSearch.search_ok_inv_grad (a b c : ℚ) (w : ℤ) (fee : ℚ) (w1 w2 w3 : Dec)
    (x : GradSearch.Candidate)
    (h : GradSearch.search a b c w fee w1 w2 w3 = .ok x) :
    0 < to_wei a ∧ to_wei a ≤ to_wei b ∧ 0 < to_wei c ∧ 0 ≤ w ∧
    0 < to_wei fee ∧ to_wei fee < TARGET_ETH_WEI ∧
    foldBest GradSearch.pick
      (GradSearch.candidates (to_wei a) (to_wei b) (to_wei c) w (to_wei fee)
        w1 w2 w3) = some x := by
  simp only [GradSearch.search] at h
  split_ifs at h with h1 h2 h3 h4 h5
  push_neg at h5
  refine ⟨by omega, by omega, by omega, by omega, h5.1, h5.2, ?_⟩
  rcases hf : foldBest GradSearch.pick
      (GradSearch.candidates (to_wei a) (to_wei b) (to_wei c) w (to_wei fee)
        w1 w2 w3) with _ | y
  · rw [hf] at h; exact absurd h (by simp)
  · rw [hf] at h
    simp only [Except.ok.injEq] at h
    rw [h]

/-- A valid graduation-script search reduces to the fold over its candidates. -/
theorem GradSearch.search_valid_grad (a b c : ℚ) (w : ℤ) (fee : ℚ) (w1 w2 w3 : Dec)
    (h1 : 0 < to_wei a) (h2 : to_wei a ≤ to_wei b) (h3 : 0 < to_wei c)
    (h4 : 0 ≤ w) (h5 : 0 < to_wei fee) (h6 : to_wei fee < TARGET_ETH_WEI) :
    GradSearch.search a b c w fee w1 w2 w3 =
      match foldBest GradSearch.pick
          (GradSearch.candidates (to_wei a) (to_wei b) (to_wei c) w (to_wei fee)
            w1 w2 w3) with
      | none => .error .noCandidate
      | some best => .ok best := by
  simp only [GradSearch.search]
  rw [if_neg (by omega), if_neg (by omega), if_neg (by omega), if_neg (by omega),
    if_neg (by omega)]

end SearchLemmas

/-- The reported target error of a first-script search result, when it
returned a candidate. -/
def resErr1 : Except SearchErr ParamsSearch.Candidate → Option ℤ
  | .ok b => some b.target_error
  | .error _ => none

/-- The curve parameters and zero-point reserve of a first-script result:
(k, t0, e0, t_at_zero). -/
def resView1 : Except SearchErr ParamsSearch.Candidate → Option (ℤ × ℤ × ℤ × ℤ)
  | .ok b => some (b.k, b.t0, b.e0, b.t_at_zero)
  | .error _ => none

/-- The reported token error of a graduation-script search result. -/
def resTok2 : Except SearchErr GradSearch.Candidate → Option ℤ
  | .ok b => some b.token_error_wei
  | .error _ => none

/-- The curve parameters and zero-point reserve of a graduation-script
result: (k, t0, e0, t_at_zero). -/
def resView2 : Except SearchErr GradSearch.Candidate → Option (ℤ × ℤ × ℤ × ℤ)
  | .ok b => some (b.k, b.t0, b.e0, b.t_at_zero)
  | .error _ => none

/-- The value of the composite score of a graduation-script search result. -/
def resScoreQ : Except SearchErr GradSearch.Candidate → Option ℚ
  | .ok b => some b.score.toRat
  | .error _ => none

/-- Comparison of optional results: whenever the right-hand run produced a
value, the left-hand run produced one at most as large. -/
def optLE {β : Type} [LE β] : Option β → Option β → Prop
  | _, none => True
  | none, some _ => False
  | some x, some y => x ≤ y

/-- The result is one of the three ValueError checks of the first script. -/
def isValidation1 (r : Except SearchErr ParamsSearch.Candidate) : Prop :=
  r = .error .invalidMin ∨ r = .error .invalidRange ∨ r = .error .invalidStep

/-- The result is one of the five ValueError checks of the graduation
script. -/
def isValidation2 (r : Except SearchErr GradSearch.Candidate) : Prop :=
  r = .error .invalidMin ∨ r = .error .invalidRange ∨ r = .error .invalidStep ∨
  r = .error .invalidWindow ∨ r = .error .invalidFee

/-- C9: for every e0 > 0 and t0 >= 0, with k = (TOTAL_SUPPLY + t0) * e0 the
integer computation k // (0 + e0) - t0 equals TOTAL_SUPPLY exactly, so the
rejection branch guarded by t_at_zero != TOTAL_SUPPLY is unreachable in both
scripts: the first script then always returns a candidate, and the
graduation script can only reject such a pair at one of its three later
guards (t_at_grad <= 0, a nonpositive Uniswap ETH amount, or a zero curve
price), never at the zero-ETH identity check. -/
theorem c9_zero_check_unreachable (e0 t0 : ℤ) (h1 : 0 < e0) (h2 : 0 ≤ t0) :
    reserves_from_eth ((TOTAL_SUPPLY + t0) * e0) t0 e0 0 = TOTAL_SUPPLY ∧
    (ParamsSearch.evaluate_candidate e0 t0).isSome = true ∧
    (∀ (fee : ℤ) (w1 w2 w3 : Dec),
      GradSearch.evaluate_candidate e0 t0 fee w1 w2 w3 = none →
        reserves_from_eth ((TOTAL_SUPPLY + t0) * e0) t0 e0 TARGET_ETH_WEI ≤ 0 ∨
        TARGET_ETH_WEI - fee ≤ 0 ∨
        (Dec.div (Dec.ofInt ((TARGET_ETH_WEI + e0) ^ 2))
          (Dec.ofInt ((TOTAL_SUPPLY + t0) * e0))).toRat = 0) := by
  refine ⟨reserves_at_zero e0 t0 h1, ParamsSearch.evaluate_isSome e0 t0 h1 h2, ?_⟩
  intro fee w1 w2 w3 h
  simp only [GradSearch.evaluate_candidate] at h
  rw [if_neg (by omega : ¬(e0 ≤ 0 ∨ t0 < 0)),
    if_neg (not_ne_iff.mpr (reserves_at_zero e0 t0 h1))] at h
  split_ifs at h with h3 h4 h5
  · exact Or.inl h3
  · exact Or.inr (Or.inl h4)
  · exact Or.inr (Or.inr (Dec.toRat_eq_zero _ h5))

/-- Witness for C9 at e0 = 1, t0 = 0: the identity holds and the first script
evaluates the pair successfully. -/
theorem c9_zero_check_unreachable_witness :
    reserves_from_eth ((TOTAL_SUPPLY + 0) * 1) 0 1 0 = TOTAL_SUPPLY ∧
    (ParamsSearch.evaluate_candidate 1 0).isSome = true :=
  ⟨(c9_zero_check_unreachable 1 0 (by decide) (by decide)).1,
   (c9_zero_check_unreachable 1 0 (by decide) (by decide)).2.1⟩

/-- C1: for every scan (the valid ranges being exactly those on which search
can return at all), if search returns a Candidate then that candidate
satisfies the zero-ETH identity exactly: k // (0 + e0) - t0, the recorded
t_at_zero, equals TOTAL_SUPPLY = 10^9 * 10^18, in both parameter-search
scripts. -/
theorem c1_zero_eth_identity :
    (∀ (a b c : ℚ) (k t0 e0 tz : ℤ),
      resView1 (ParamsSearch.search a b c) = some (k, t0, e0, tz) →
        tz = TOTAL_SUPPLY ∧ reserves_from_eth k t0 e0 0 = TOTAL_SUPPLY ∧
        TOTAL_SUPPLY = 10 ^ 9 * 10 ^ 18) ∧
    (∀ (a b c : ℚ) (w : ℤ) (fee : ℚ) (w1 w2 w3 : Dec) (k t0 e0 tz : ℤ),
      resView2 (GradSearch.search a b c w fee w1 w2 w3) = some (k, t0, e0, tz) →
        tz = TOTAL_SUPPLY ∧ reserves_from_eth k t0 e0 0 = TOTAL_SUPPLY ∧
        TOTAL_SUPPLY = 10 ^ 9 * 10 ^ 18) := by
  constructor
  · intro a b c k t0 e0 tz h
    rcases hs : ParamsSearch.search a b c with er | x
    · rw [hs] at h; exact absurd h (by simp [resView1])
    rw [hs] at h
    simp only [resView1, Option.some.injEq, Prod.mk.injEq] at h
    obtain ⟨hk, ht0, he0, htz⟩ := h
    obtain ⟨-, -, -, hfold⟩ := ParamsSearch.search_ok_inv_params a b c x hs
    have hx := foldBest_mem ParamsSearch.pick ParamsSearch.pick_cases_params _ x hfold
    rw [ParamsSearch.mem_candidates_params] at hx
    obtain ⟨ee, -, tt, -, hev⟩ := hx
    obtain ⟨hepos, htnn, hce, hct, hck, hcz, -, -⟩ :=
      ParamsSearch.evaluate_eq_some_params ee tt x hev
    refine ⟨htz ▸ hcz, ?_, by decide⟩
    rw [← hk, ← ht0, ← he0, hck, hce, hct]
    exact reserves_at_zero ee tt hepos
  · intro a b c w fee w1 w2 w3 k t0 e0 tz h
    rcases hs : GradSearch.search a b c w fee w1 w2 w3 with er | x
    · rw [hs] at h; exact absurd h (by simp [resView2])
    rw [hs] at h
    simp only [resView2, Option.some.injEq, Prod.mk.injEq] at h
    obtain ⟨hk, ht0, he0, htz⟩ := h
    obtain ⟨-, -, -, -, -, -, hfold⟩ := GradSearch.search_ok_inv_grad a b c w fee w1 w2 w3 x hs
    have hx := foldBest_mem GradSearch.pick GradSearch.pick_cases_grad _ x hfold
    rw [GradSearch.mem_candidates_grad] at hx
    obtain ⟨ee, -, tt, -, hev⟩ := hx
    obtain ⟨hepos, htnn, hce, hct, hck, hcz, -, -, -⟩ :=
      GradSearch.evaluate_eq_some_grad ee tt _ w1 w2 w3 x hev
    refine ⟨htz ▸ hcz, ?_, by decide⟩
    rw [← hk, ← ht0, ← he0, hck, hce, hct]
    exact reserves_at_zero ee tt hepos

/-- Witness for C1 at the range [3 ETH, 3 ETH]: both searches return the
candidate with E0 = 3 * 10^18 wei, and its zero-point reserve equals
TOTAL_SUPPLY. -/
theorem c1_zero_eth_identity_witness :
    ((1000000000000000000000000000 : ℤ) = TOTAL_SUPPLY ∧
      reserves_from_eth 3247058823529411764705882351000000000000000000
        82352941176470588235294117 3000000000000000000 0 = TOTAL_SUPPLY ∧
      TOTAL_SUPPLY = 10 ^ 9 * 10 ^ 18) ∧
    ((1000000000000000000000000000 : ℤ) = TOTAL_SUPPLY ∧
      reserves_from_eth 3247058823529411764705882351000000000000000000
        82352941176470588235294117 3000000000000000000 0 = TOTAL_SUPPLY ∧
      TOTAL_SUPPLY = 10 ^ 9 * 10 ^ 18) :=
  ⟨c1_zero_eth_identity.1 3 3 1 3247058823529411764705882351000000000000000000
      82352941176470588235294117 3000000000000000000 1000000000000000000000000000
      (by decide),
   c1_zero_eth_identity.2 3 3 1 0 (mkRat 1 2) ⟨0, 0⟩ ⟨0, 0⟩ ⟨0, 0⟩
      3247058823529411764705882351000000000000000000
      82352941176470588235294117 3000000000000000000 1000000000000000000000000000
      (by decide)⟩

/-- The composite score of a graduation-script search result, as the decimal
the scan computed. -/
def resScore2 : Except SearchErr GradSearch.Candidate → Option Dec
  | .ok b => some b.score
  | .error _ => none

/-- C2, amended.  In the first script the reported target error of the
returned candidate is non-negative and minimal among all candidates the scan
evaluated.  In the graduation script the reported token error is
non-negative, but the scan minimises the composite score, not the token
error: the returned candidate has the minimal score value among all
evaluated candidates, while its token error need not be minimal (see the
counterexample). -/
theorem c2_reported_error_minimality :
    (∀ (a b c : ℚ) (er : ℤ),
      resErr1 (ParamsSearch.search a b c) = some er →
        0 ≤ er ∧ ∀ cd ∈ ParamsSearch.candidates (to_wei a) (to_wei b) (to_wei c),
          er ≤ cd.target_error) ∧
    (∀ (a b c : ℚ) (w : ℤ) (fee : ℚ) (w1 w2 w3 : Dec) (te : ℤ) (sd : Dec),
      resTok2 (GradSearch.search a b c w fee w1 w2 w3) = some te →
      resScore2 (GradSearch.search a b c w fee w1 w2 w3) = some sd →
        0 ≤ te ∧ ∀ cd ∈ GradSearch.candidates (to_wei a) (to_wei b) (to_wei c) w
          (to_wei fee) w1 w2 w3, sd.toRat ≤ cd.score.toRat) := by
  constructor
  · intro a b c er h
    rcases hs : ParamsSearch.search a b c with e | x
    · rw [hs] at h; exact absurd h (by simp [resErr1])
    rw [hs] at h
    simp only [resErr1, Option.some.injEq] at h
    subst h
    obtain ⟨-, -, -, hfold⟩ := ParamsSearch.search_ok_inv_params a b c x hs
    have hmem := foldBest_mem ParamsSearch.pick ParamsSearch.pick_cases_params _ x hfold
    rw [ParamsSearch.mem_candidates_params] at hmem
    obtain ⟨ee, -, tt, -, hev⟩ := hmem
    obtain ⟨-, -, -, -, -, -, -, herr⟩ := ParamsSearch.evaluate_eq_some_params ee tt x hev
    refine ⟨herr ▸ abs_nonneg _, ?_⟩
    exact foldBest_min ParamsSearch.pick ParamsSearch.Candidate.target_error
      ParamsSearch.pick_key_params _ x hfold
  · intro a b c w fee w1 w2 w3 te sd h1 h2
    rcases hs : GradSearch.search a b c w fee w1 w2 w3 with e | x
    · rw [hs] at h1; exact absurd h1 (by simp [resTok2])
    rw [hs] at h1 h2
    simp only [resTok2, Option.some.injEq] at h1
    simp only [resScore2, Option.some.injEq] at h2
    subst h1
    subst h2
    obtain ⟨-, -, -, -, -, -, hfold⟩ := GradSearch.search_ok_inv_grad a b c w fee w1 w2 w3 x hs
    have hmem := foldBest_mem GradSearch.pick GradSearch.pick_cases_grad _ x hfold
    rw [GradSearch.mem_candidates_grad] at hmem
    obtain ⟨ee, -, tt, -, hev⟩ := hmem
    obtain ⟨-, -, -, -, -, -, -, -, herr⟩ := GradSearch.evaluate_eq_some_grad ee tt _ w1 w2 w3 x hev
    refine ⟨herr ▸ abs_nonneg _, ?_⟩
    exact foldBest_min GradSearch.pick (fun cd => cd.score.toRat)
      GradSearch.pick_key_grad _ x hfold
/-- Counterexample to C2 as stated: with range 3 ETH to 3 ETH, step 1 ETH,
window 5, target fee 0.5 ETH and weights (0, 1, 0), all eleven evaluated
candidates tie on the composite score, so the scan keeps the first one
(t0 = floor - 5) with token error 4, although the evaluated candidate at
t0 = floor has token error 0: the reported error is not the minimum over the
evaluated candidates. -/
theorem c2_counterexample :
    resTok2 (GradSearch.search 3 3 1 5 (mkRat 1 2) ⟨0, 0⟩ ⟨1, 0⟩ ⟨0, 0⟩) = some 4 ∧
    (3000000000000000000 : ℤ) ∈ e0Grid (to_wei 3) (to_wei 3) (to_wei 1) ∧
    (82352941176470588235294117 : ℤ) ∈
      GradSearch.t0List (ParamsSearch.floor_t0 3000000000000000000) 5 ∧
    (GradSearch.evaluate_candidate 3000000000000000000 82352941176470588235294117
        (to_wei (mkRat 1 2)) ⟨0, 0⟩ ⟨1, 0⟩ ⟨0, 0⟩).map
      GradSearch.Candidate.token_error_wei = some 0 ∧
    (0 : ℤ) < 4 := by decide

/-- Witness for C2 at the range [3 ETH, 3 ETH]. -/
theorem c2_witness :
    ((0 : ℤ) ≤ 0 ∧
      (0 : ℤ) ≤ (⟨3247058823529411764705882354000000000000000000,
        82352941176470588235294118, 3000000000000000000,
        1000000000000000000000000000, 199999999999999999999999999, 1⟩ :
        ParamsSearch.Candidate).target_error) ∧
    Dec.toRat ⟨0, -116⟩ ≤ (⟨3247058823529411764705882351000000000000000000,
      82352941176470588235294117, 3000000000000000000,
      1000000000000000000000000000, 200000000000000000000000000, 0,
      354166666666666666, 145833333333333334,
      ⟨407291666666666666666666666910156250000000000000000000145564424818840579710144927623254095, -97⟩,
      ⟨400000000000000000000000000000000000000000000000000000000000000000000000000000000000000000, -97⟩,
      ⟨179028132992327365728900261625708884688090737240075614366729678638941398865784499054820427, -91⟩,
      ⟨0, -116⟩⟩ : GradSearch.Candidate).score.toRat :=
  ⟨⟨(c2_reported_error_minimality.1 3 3 1 0 (by decide)).1,
    (c2_reported_error_minimality.1 3 3 1 0 (by decide)).2 _ (by decide)⟩,
   (c2_reported_error_minimality.2 3 3 1 0 (mkRat 1 2) ⟨0, 0⟩ ⟨0, 0⟩ ⟨0, 0⟩ 0 ⟨0, -116⟩
      (by decide) (by decide)).2 _ (by decide)⟩

/-- Whenever the first script returns a candidate at all, the reported target
error is exactly zero: any evaluated pair forces the derived floor point of
its e0 to be nonnegative, and the candidate at the floor point hits
TARGET_TOKENS exactly, so the minimum over the scan is zero. -/
theorem ParamsSearch.ok_err_zero (a b c : ℚ) (er : ℤ)
    (h : resErr1 (ParamsSearch.search a b c) = some er) : er = 0 := by
  rcases hs : ParamsSearch.search a b c with e | x
  · rw [hs] at h; exact absurd h (by simp [resErr1])
  rw [hs] at h
  simp only [resErr1, Option.some.injEq] at h
  subst h
  obtain ⟨-, -, -, hfold⟩ := ParamsSearch.search_ok_inv_params a b c x hs
  have hmem := foldBest_mem ParamsSearch.pick ParamsSearch.pick_cases_params _ x hfold
  rw [ParamsSearch.mem_candidates_params] at hmem
  obtain ⟨ee, hee, tt, htt, hev⟩ := hmem
  obtain ⟨hepos, htnn, -, -, -, -, -, herr⟩ := ParamsSearch.evaluate_eq_some_params ee tt x hev
  have hwin : ParamsSearch.floor_t0 ee - 2 ≤ tt ∧ tt ≤ ParamsSearch.floor_t0 ee + 2 := by
    simp only [ParamsSearch.candidate_t0_values, List.mem_cons, List.not_mem_nil,
      or_false] at htt
    rcases htt with rfl | rfl | rfl | rfl | rfl <;> omega
  have hf : 0 ≤ ParamsSearch.floor_t0 ee := floor_t0_not_small ee (by omega)
  obtain ⟨c0, hc0, hc0err⟩ := ParamsSearch.evaluate_floor ee hepos hf
  have hc0mem : c0 ∈ ParamsSearch.candidates (to_wei a) (to_wei b) (to_wei c) := by
    rw [ParamsSearch.mem_candidates_params]
    exact ⟨ee, hee, ParamsSearch.floor_t0 ee,
      by simp [ParamsSearch.candidate_t0_values], hc0⟩
  have hmin := foldBest_min ParamsSearch.pick ParamsSearch.Candidate.target_error
    ParamsSearch.pick_key_params _ x hfold c0 hc0mem
  have hnn : 0 ≤ x.target_error := herr ▸ abs_nonneg _
  omega

/-- Refining the graduation-script step to a divisor can only enlarge the
evaluated-candidate list. -/
theorem GradSearch.candidates_subset_step (minE maxE s s' w fee : ℤ)
    (w1 w2 w3 : Dec) (hs : 0 < s) (hs' : 0 < s') (hd : s' ∣ s)
    (c : GradSearch.Candidate)
    (hc : c ∈ GradSearch.candidates minE maxE s w fee w1 w2 w3) :
    c ∈ GradSearch.candidates minE maxE s' w fee w1 w2 w3 := by
  rw [GradSearch.mem_candidates_grad] at hc ⊢
  obtain ⟨ee, hee, tt, htt, hev⟩ := hc
  exact ⟨ee, e0Grid_subset_of_dvd minE maxE s s' hs hs' hd ee hee, tt, htt, hev⟩

/-- C3, amended.  In the first script, whenever two searches over the same
range both return a candidate, the two reported target errors agree (both
are zero), so no change of step can increase the reported error.  In the
graduation script the guarantee concerns the composite score the scan
minimises and requires the finer step to divide the coarser one (so that the
finer grid is a superset of the coarser): the finer search then also returns
a candidate, and its score value does not exceed the coarser one.  For steps
with incomparable grids the claim fails as stated (see the counterexample:
a smaller step can report a strictly larger token error). -/
theorem c3_step_refinement :
    (∀ (a b s s' : ℚ) (e e' : ℤ),
      resErr1 (ParamsSearch.search a b s) = some e →
      resErr1 (ParamsSearch.search a b s') = some e' → e' ≤ e) ∧
    (∀ (a b s s' : ℚ) (w : ℤ) (fee : ℚ) (w1 w2 w3 : Dec),
      0 < to_wei s' → to_wei s' ∣ to_wei s →
      optLE (resScoreQ (GradSearch.search a b s' w fee w1 w2 w3))
            (resScoreQ (GradSearch.search a b s w fee w1 w2 w3))) := by
  constructor
  · intro a b s s' e e' h h'
    rw [ParamsSearch.ok_err_zero a b s e h, ParamsSearch.ok_err_zero a b s' e' h']
  · intro a b s s' w fee w1 w2 w3 hpos hdvd
    rcases hs : GradSearch.search a b s w fee w1 w2 w3 with er | x
    · cases hq : resScoreQ (GradSearch.search a b s' w fee w1 w2 w3) <;>
        simp [optLE, resScoreQ]
    obtain ⟨h1, h2, h3, h4, h5, h6, hfold⟩ :=
      GradSearch.search_ok_inv_grad a b s w fee w1 w2 w3 x hs
    have hxmem := foldBest_mem GradSearch.pick GradSearch.pick_cases_grad _ x hfold
    have hxmem' := GradSearch.candidates_subset_step (to_wei a) (to_wei b)
      (to_wei s) (to_wei s') w (to_wei fee) w1 w2 w3 h3 hpos hdvd x hxmem
    have hne : GradSearch.candidates (to_wei a) (to_wei b) (to_wei s') w
        (to_wei fee) w1 w2 w3 ≠ [] := by
      intro hnil; rw [hnil] at hxmem'; exact absurd hxmem' (List.not_mem_nil x)
    rcases hfold' : foldBest GradSearch.pick (GradSearch.candidates (to_wei a)
        (to_wei b) (to_wei s') w (to_wei fee) w1 w2 w3) with _ | x'
    · exact absurd ((foldBest_eq_none_iff GradSearch.pick _).mp hfold') hne
    have hs' : GradSearch.search a b s' w fee w1 w2 w3 = .ok x' := by
      rw [GradSearch.search_valid_grad a b s' w fee w1 w2 w3 h1 h2 hpos h4 h5 h6, hfold']
    rw [hs']
    exact foldBest_min GradSearch.pick (fun cd => cd.score.toRat)
      GradSearch.pick_key_grad _ x' hfold' x hxmem'
/-- Counterexample to C3 as stated: over the range [3000000000000000011,
3000004000000000011] wei with window 5, fee 0.5 ETH and weights (0, 1, 0),
the step 4 * 10^12 wei reports token error 3 while the smaller step
3 * 10^12 wei reports token error 4: decreasing the step increased the
reported error (the two grids are incomparable). -/
theorem c3_counterexample :
    0 < to_wei (mkRat 3 1000000) ∧
    to_wei (mkRat 3 1000000) < to_wei (mkRat 1 250000) ∧
    resTok2 (GradSearch.search (mkRat 3000000000000000011 1000000000000000000)
      (mkRat 3000004000000000011 1000000000000000000) (mkRat 1 250000) 5 (mkRat 1 2)
      ⟨0, 0⟩ ⟨1, 0⟩ ⟨0, 0⟩) = some 3 ∧
    resTok2 (GradSearch.search (mkRat 3000000000000000011 1000000000000000000)
      (mkRat 3000004000000000011 1000000000000000000) (mkRat 3 1000000) 5 (mkRat 1 2)
      ⟨0, 0⟩ ⟨1, 0⟩ ⟨0, 0⟩) = some 4 ∧
    (3 : ℤ) < 4 := by decide

/-- Witness for C3: two first-script searches over [3 ETH, 3 ETH] and two
graduation searches whose steps 2 wei and 4 wei satisfy the divisibility. -/
theorem c3_witness :
    (0 : ℤ) ≤ 0 ∧
    optLE (resScoreQ (GradSearch.search 3 3 (mkRat 2 1000000000000000000) 0
        (mkRat 1 2) ⟨1, 0⟩ ⟨1, 0⟩ ⟨1, 0⟩))
      (resScoreQ (GradSearch.search 3 3 (mkRat 4 1000000000000000000) 0
        (mkRat 1 2) ⟨1, 0⟩ ⟨1, 0⟩ ⟨1, 0⟩)) :=
  ⟨c3_step_refinement.1 3 3 1 1 0 0 (by decide) (by decide),
   c3_step_refinement.2 3 3 (mkRat 4 1000000000000000000)
     (mkRat 2 1000000000000000000) 0 (mkRat 1 2) ⟨1, 0⟩ ⟨1, 0⟩ ⟨1, 0⟩
     (by decide) (by decide)⟩

/-- Membership in the graduation-script t0 window around the floor point. -/
theorem GradSearch.mem_t0List (f w t0 : ℤ) :
    t0 ∈ GradSearch.t0List f w ↔ f - w ≤ t0 ∧ t0 ≤ f + w := by
  unfold GradSearch.t0List
  rw [List.mem_map]
  constructor
  · rintro ⟨i, hi, rfl⟩
    rw [List.mem_range] at hi
    omega
  · rintro ⟨h1, h2⟩
    refine ⟨(t0 - (f - w)).toNat, ?_, by omega⟩
    rw [List.mem_range]
    omega

/-- Widening the t0 window can only enlarge the evaluated-candidate list. -/
theorem GradSearch.candidates_subset_window (minE maxE s w w' fee : ℤ)
    (w1 w2 w3 : Dec) (hw : w ≤ w') (c : GradSearch.Candidate)
    (hc : c ∈ GradSearch.candidates minE maxE s w fee w1 w2 w3) :
    c ∈ GradSearch.candidates minE maxE s w' fee w1 w2 w3 := by
  rw [GradSearch.mem_candidates_grad] at hc ⊢
  obtain ⟨ee, hee, tt, htt, hev⟩ := hc
  rw [GradSearch.mem_t0List] at htt
  exact ⟨ee, hee, tt, (GradSearch.mem_t0List _ _ _).mpr (by omega), hev⟩

/-- C4, amended.  Widening the integer search window around the derived
closed-form point never increases the best composite score found: if the
narrower window returns a candidate, the wider one also returns a candidate
and its score value is at most the narrower one.  The reported token error
of the returned candidate, however, can strictly increase when the window
widens (see the counterexample), because the scan minimises the score, not
the token error. -/
theorem c4_window_widening (a b s : ℚ) (fee : ℚ) (w1 w2 w3 : Dec) (w w' : ℤ)
    (hw : w ≤ w') :
    optLE (resScoreQ (GradSearch.search a b s w' fee w1 w2 w3))
          (resScoreQ (GradSearch.search a b s w fee w1 w2 w3)) := by
  rcases hs : GradSearch.search a b s w fee w1 w2 w3 with er | x
  · cases hq : resScoreQ (GradSearch.search a b s w' fee w1 w2 w3) <;>
      simp [optLE, resScoreQ]
  obtain ⟨h1, h2, h3, h4, h5, h6, hfold⟩ :=
    GradSearch.search_ok_inv_grad a b s w fee w1 w2 w3 x hs
  have hxmem := foldBest_mem GradSearch.pick GradSearch.pick_cases_grad _ x hfold
  have hxmem' := GradSearch.candidates_subset_window (to_wei a) (to_wei b)
    (to_wei s) w w' (to_wei fee) w1 w2 w3 hw x hxmem
  have hne : GradSearch.candidates (to_wei a) (to_wei b) (to_wei s) w'
      (to_wei fee) w1 w2 w3 ≠ [] := by
    intro hnil; rw [hnil] at hxmem'; exact absurd hxmem' (List.not_mem_nil x)
  rcases hfold' : foldBest GradSearch.pick (GradSearch.candidates (to_wei a)
      (to_wei b) (to_wei s) w' (to_wei fee) w1 w2 w3) with _ | x'
  · exact absurd ((foldBest_eq_none_iff GradSearch.pick _).mp hfold') hne
  have hsw : GradSearch.search a b s w' fee w1 w2 w3 = .ok x' := by
    rw [GradSearch.search_valid_grad a b s w' fee w1 w2 w3 h1 h2 h3 (by omega) h5 h6, hfold']
  rw [hsw]
  exact foldBest_min GradSearch.pick (fun cd => cd.score.toRat)
    GradSearch.pick_key_grad _ x' hfold' x hxmem'

/-- Counterexample to C4 as stated: over [3 ETH, 3 ETH] with step 1 ETH, fee
0.5 ETH and all weights zero, every candidate scores zero, so the scan keeps
the first candidate of the window.  With t0_window = 0 the only candidate is
the floor point (token error 0); with t0_window = 1 the first candidate is
floor - 1 (token error 1): widening the window increased the reported
error. -/
theorem c4_counterexample :
    (0 : ℤ) ≤ 1 ∧
    resTok2 (GradSearch.search 3 3 1 0 (mkRat 1 2) ⟨0, 0⟩ ⟨0, 0⟩ ⟨0, 0⟩) = some 0 ∧
    resTok2 (GradSearch.search 3 3 1 1 (mkRat 1 2) ⟨0, 0⟩ ⟨0, 0⟩ ⟨0, 0⟩) = some 1 ∧
    (0 : ℤ) < 1 := by decide

/-- Witness for C4 at windows 0 and 1 over [3 ETH, 3 ETH]. -/
theorem c4_window_widening_witness :
    optLE (resScoreQ (GradSearch.search 3 3 1 1 (mkRat 1 2) ⟨1, 0⟩ ⟨1, 0⟩ ⟨1, 0⟩))
          (resScoreQ (GradSearch.search 3 3 1 0 (mkRat 1 2) ⟨1, 0⟩ ⟨1, 0⟩ ⟨1, 0⟩)) :=
  c4_window_widening 3 3 1 (mkRat 1 2) ⟨1, 0⟩ ⟨1, 0⟩ ⟨1, 0⟩ 0 1 (by decide)

/-- C6: each search raises a ValueError, before scanning anything, exactly
when an argument check fails: the minimum bound in wei is nonpositive, the
maximum is below the minimum, the step in wei is nonpositive, or, in the
graduation script, the window is negative or the target fee in wei lies
outside the open interval (0, TARGET_ETH_WEI).  With valid arguments none of
these errors is raised (the only remaining outcomes are a candidate or the
final RuntimeError). -/
theorem c6_validation_iff :
    (∀ a b c : ℚ,
      isValidation1 (ParamsSearch.search a b c) ↔
        (to_wei a ≤ 0 ∨ to_wei b < to_wei a ∨ to_wei c ≤ 0)) ∧
    (∀ (a b c : ℚ) (w : ℤ) (fee : ℚ) (w1 w2 w3 : Dec),
      isValidation2 (GradSearch.search a b c w fee w1 w2 w3) ↔
        (to_wei a ≤ 0 ∨ to_wei b < to_wei a ∨ to_wei c ≤ 0 ∨ w < 0 ∨
          to_wei fee ≤ 0 ∨ TARGET_ETH_WEI ≤ to_wei fee)) := by
  constructor
  · intro a b c
    simp only [ParamsSearch.search]
    split_ifs with h1 h2 h3
    · exact iff_of_true (Or.inl rfl) (Or.inl h1)
    · exact iff_of_true (Or.inr (Or.inl rfl)) (Or.inr (Or.inl h2))
    · exact iff_of_true (Or.inr (Or.inr rfl)) (Or.inr (Or.inr h3))
    · rcases hf : foldBest ParamsSearch.pick
          (ParamsSearch.candidates (to_wei a) (to_wei b) (to_wei c)) with _ | x <;>
        exact iff_of_false (by simp [isValidation1]) (by omega)
  · intro a b c w fee w1 w2 w3
    simp only [GradSearch.search]
    split_ifs with h1 h2 h3 h4 h5
    · exact iff_of_true (Or.inl rfl) (Or.inl h1)
    · exact iff_of_true (Or.inr (Or.inl rfl)) (Or.inr (Or.inl h2))
    · exact iff_of_true (Or.inr (Or.inr (Or.inl rfl))) (Or.inr (Or.inr (Or.inl h3)))
    · exact iff_of_true (Or.inr (Or.inr (Or.inr (Or.inl rfl))))
        (Or.inr (Or.inr (Or.inr (Or.inl h4))))
    · refine iff_of_true (Or.inr (Or.inr (Or.inr (Or.inr rfl)))) ?_
      rcases h5 with h5 | h5
      · exact Or.inr (Or.inr (Or.inr (Or.inr (Or.inl h5))))
      · exact Or.inr (Or.inr (Or.inr (Or.inr (Or.inr h5))))
    · push_neg at h5
      rcases hf : foldBest GradSearch.pick
          (GradSearch.candidates (to_wei a) (to_wei b) (to_wei c) w (to_wei fee)
            w1 w2 w3) with _ | x <;>
        refine iff_of_false (by simp [isValidation2]) ?_ <;>
        · obtain ⟨h5a, h5b⟩ := h5
          omega

/-- C7: with valid arguments, each search raises the terminal RuntimeError
exactly when every (e0, t0) pair visited by the scan fails evaluation; if
some visited pair evaluates to a candidate, the search returns a best
candidate instead of raising. -/
theorem c7_no_candidate_runtime_error :
    (∀ a b c : ℚ, 0 < to_wei a → to_wei a ≤ to_wei b → 0 < to_wei c →
      ((ParamsSearch.search a b c = .error .noCandidate ↔
        ∀ e0 ∈ e0Grid (to_wei a) (to_wei b) (to_wei c),
          ∀ t0 ∈ ParamsSearch.candidate_t0_values (ParamsSearch.floor_t0 e0),
            ParamsSearch.evaluate_candidate e0 t0 = none) ∧
       (¬(∀ e0 ∈ e0Grid (to_wei a) (to_wei b) (to_wei c),
          ∀ t0 ∈ ParamsSearch.candidate_t0_values (ParamsSearch.floor_t0 e0),
            ParamsSearch.evaluate_candidate e0 t0 = none) →
          ∃ x, ParamsSearch.search a b c = .ok x))) ∧
    (∀ (a b c : ℚ) (w : ℤ) (fee : ℚ) (w1 w2 w3 : Dec),
      0 < to_wei a → to_wei a ≤ to_wei b → 0 < to_wei c → 0 ≤ w →
      0 < to_wei fee → to_wei fee < TARGET_ETH_WEI →
      ((GradSearch.search a b c w fee w1 w2 w3 = .error .noCandidate ↔
        ∀ e0 ∈ e0Grid (to_wei a) (to_wei b) (to_wei c),
          ∀ t0 ∈ GradSearch.t0List (ParamsSearch.floor_t0 e0) w,
            GradSearch.evaluate_candidate e0 t0 (to_wei fee) w1 w2 w3 = none) ∧
       (¬(∀ e0 ∈ e0Grid (to_wei a) (to_wei b) (to_wei c),
          ∀ t0 ∈ GradSearch.t0List (ParamsSearch.floor_t0 e0) w,
            GradSearch.evaluate_candidate e0 t0 (to_wei fee) w1 w2 w3 = none) →
          ∃ x, GradSearch.search a b c w fee w1 w2 w3 = .ok x))) := by
  constructor
  · intro a b c h1 h2 h3
    have hval := ParamsSearch.search_valid_params a b c h1 h2 h3
    have hemp : ParamsSearch.candidates (to_wei a) (to_wei b) (to_wei c) = [] ↔
        ∀ e0 ∈ e0Grid (to_wei a) (to_wei b) (to_wei c),
          ∀ t0 ∈ ParamsSearch.candidate_t0_values (ParamsSearch.floor_t0 e0),
            ParamsSearch.evaluate_candidate e0 t0 = none := by
      simp only [ParamsSearch.candidates, List.flatMap_eq_nil_iff,
        List.filterMap_eq_nil_iff]
    rcases hf : foldBest ParamsSearch.pick
        (ParamsSearch.candidates (to_wei a) (to_wei b) (to_wei c)) with _ | x
    · have hnil := (foldBest_eq_none_iff ParamsSearch.pick _).mp hf
      constructor
      · rw [hval, hf]
        exact iff_of_true rfl (hemp.mp hnil)
      · intro hcontra
        exact absurd (hemp.mp hnil) hcontra
    · have hne : ParamsSearch.candidates (to_wei a) (to_wei b) (to_wei c) ≠ [] := by
        intro hnil
        rw [(foldBest_eq_none_iff ParamsSearch.pick _).mpr hnil] at hf
        exact Option.noConfusion hf
      constructor
      · rw [hval, hf]
        exact iff_of_false (by simp) (fun hall => hne (hemp.mpr hall))
      · intro hcontra
        exact ⟨x, by rw [hval, hf]⟩
  · intro a b c w fee w1 w2 w3 h1 h2 h3 h4 h5 h6
    have hval := GradSearch.search_valid_grad a b c w fee w1 w2 w3 h1 h2 h3 h4 h5 h6
    have hemp : GradSearch.candidates (to_wei a) (to_wei b) (to_wei c) w
        (to_wei fee) w1 w2 w3 = [] ↔
        ∀ e0 ∈ e0Grid (to_wei a) (to_wei b) (to_wei c),
          ∀ t0 ∈ GradSearch.t0List (ParamsSearch.floor_t0 e0) w,
            GradSearch.evaluate_candidate e0 t0 (to_wei fee) w1 w2 w3 = none := by
      simp only [GradSearch.candidates, List.flatMap_eq_nil_iff,
        List.filterMap_eq_nil_iff]
    rcases hf : foldBest GradSearch.pick (GradSearch.candidates (to_wei a)
        (to_wei b) (to_wei c) w (to_wei fee) w1 w2 w3) with _ | x
    · have hnil := (foldBest_eq_none_iff GradSearch.pick _).mp hf
      constructor
      · rw [hval, hf]
        exact iff_of_true rfl (hemp.mp hnil)
      · intro hcontra
        exact absurd (hemp.mp hnil) hcontra
    · have hne : GradSearch.candidates (to_wei a) (to_wei b) (to_wei c) w
          (to_wei fee) w1 w2 w3 ≠ [] := by
        intro hnil
        rw [(foldBest_eq_none_iff GradSearch.pick _).mpr hnil] at hf
        exact Option.noConfusion hf
      constructor
      · rw [hval, hf]
        exact iff_of_false (by simp) (fun hall => hne (hemp.mpr hall))
      · intro hcontra
        exact ⟨x, by rw [hval, hf]⟩

/-- C10: with valid arguments the scan is finite with the exact iteration
counts of the claim: the outer loop visits (max_e0 - min_e0) // step_e0 + 1
values of e0, the first script tests five t0 values per e0, the graduation
script tests 2 * t0_window + 1 values per e0, and each search always either
returns a candidate or raises. -/
theorem c10_scan_termination :
    (∀ minE maxE step : ℤ, 0 < step → minE ≤ maxE →
      (e0Grid minE maxE step).length = ((maxE - minE).fdiv step).toNat + 1) ∧
    (∀ f : ℤ, (ParamsSearch.candidate_t0_values f).length = 5) ∧
    (∀ f w : ℤ, (GradSearch.t0List f w).length = (2 * w + 1).toNat) ∧
    (∀ a b c : ℚ, (∃ x, ParamsSearch.search a b c = .ok x) ∨
      ∃ er, ParamsSearch.search a b c = .error er) ∧
    (∀ (a b c : ℚ) (w : ℤ) (fee : ℚ) (w1 w2 w3 : Dec),
      (∃ x, GradSearch.search a b c w fee w1 w2 w3 = .ok x) ∨
      ∃ er, GradSearch.search a b c w fee w1 w2 w3 = .error er) := by
  refine ⟨e0Grid_length, fun f => rfl, ?_, ?_, ?_⟩
  · intro f w
    simp [GradSearch.t0List]
  · intro a b c
    rcases h : ParamsSearch.search a b c with er | x
    · exact Or.inr ⟨er, rfl⟩
    · exact Or.inl ⟨x, rfl⟩
  · intro a b c w fee w1 w2 w3
    rcases h : GradSearch.search a b c w fee w1 w2 w3 with er | x
    · exact Or.inr ⟨er, rfl⟩
    · exact Or.inl ⟨x, rfl⟩
/-- Witness for C7: over [1 ETH, 1 ETH] no visited pair evaluates (the
derived t0 values are all negative), so the first script raises the
RuntimeError; over [3 ETH, 3 ETH] the graduation scan evaluates a candidate,
so it does not raise it. -/
theorem c7_no_candidate_runtime_error_witness :
    ParamsSearch.search 1 1 1 = Except.error SearchErr.noCandidate ∧
    GradSearch.search 3 3 1 0 (mkRat 1 2) ⟨2, 0⟩ ⟨2, 0⟩ ⟨2, 0⟩ ≠
      Except.error SearchErr.noCandidate := by
  constructor
  · exact (c7_no_candidate_runtime_error.1 1 1 1 (by decide) (by decide)
      (by decide)).1.mpr (by decide)
  · intro h
    have hall := (c7_no_candidate_runtime_error.2 3 3 1 0 (mkRat 1 2)
      ⟨2, 0⟩ ⟨2, 0⟩ ⟨2, 0⟩ (by decide) (by decide) (by decide) (by decide)
      (by decide) (by decide)).1.mp h
    exact absurd hall (by decide)

/-- Witness for C10: the grid over [5, 9] with step 2 has (9 - 5) // 2 + 1 =
3 points. -/
theorem c10_scan_termination_witness :
    (e0Grid 5 9 2).length = ((9 - 5 : ℤ).fdiv 2).toNat + 1 :=
  c10_scan_termination.1 5 9 2 (by decide) (by decide)
